import Mathlib

/-!
Verification of the excelSort customer-matching app (src/app.py).

The development shallowly embeds the Python program:
Python strings are Lean `String`s manipulated through their `List Char` data,
spreadsheet cells are inductive types separating the missing / numeric /
string cases the code branches on, Python `set`s are duplicate-free lists
(`List.dedup`), `sorted` is `List.insertionSort` under the code-point
lexicographic order, and floating-point order values are modelled as exact
rationals.
-/

/-- A raw phone cell as seen by the normalizers. `num n` models a cell for
which Python's float coercion succeeds, with `n = int(float(val))` its
truncated integer value (covering numeric-typed cells and numeric strings);
`str s` models a cell whose float coercion raises, so the code falls back to
the regex digit filter; `missing` models a NaN cell (`pd.isna`). -/
inductive RawVal where
  | missing : RawVal
  | num : Int → RawVal
  | str : String → RawVal
deriving DecidableEq

/-- The digit-string extraction shared by both normalizers (app.py lines
37-40): `str(int(float(val)))` when numeric coercion succeeds, else
`re.sub` removing every non-digit from `str(val)`. -/
def rawDigits : RawVal → List Char
  | RawVal.missing => []
  | RawVal.num n => (Int.repr n).data
  | RawVal.str s => s.data.filter Char.isDigit

/-- Python's `s.startswith('91')` on the digit string (app.py line 44). -/
def startsWith91 : List Char → Bool
  | '9' :: '1' :: _ => true
  | _ => false

/-- Python's `s.lstrip('0')` (app.py line 48). -/
def lstrip0 (s : List Char) : List Char := s.dropWhile (fun c => c == '0')

/-- The per-value normalizer `norm` inside `normalize_mobile_series`
(app.py lines 34-48): empty string for a missing value; otherwise extract the
digit string, in lead-table context drop a leading country code when the
string starts with 91 and has length at least 12 and keep only the first 10
digits, and finally strip leading zeros. -/
def norm (is_sdr : Bool) (val : RawVal) : String :=
  match val with
  | RawVal.missing => ""
  | v =>
    let s := rawDigits v
    let s :=
      if is_sdr then
        let s1 := if startsWith91 s ∧ 12 ≤ s.length then s.drop 2 else s
        s1.take 10
      else s
    ⟨lstrip0 s⟩

/-- app.py lines 30-50: `series.apply(norm)` over a whole column. -/
def normalize_mobile_series (series : List RawVal) (is_sdr : Bool) : List String :=
  series.map (norm is_sdr)

/-- app.py lines 53-67: the single-value search normalizer. It performs the
same digit extraction, then applies the country-code drop and the 10-digit
truncation unconditionally, and strips leading zeros. -/
def normalize_single_mobile (raw : RawVal) : String :=
  let s := rawDigits raw
  let s := if startsWith91 s ∧ 12 ≤ s.length then s.drop 2 else s
  let s := s.take 10
  ⟨lstrip0 s⟩

/-- Python's lexicographic (code-point) order on strings, the order used by
`sorted`. -/
def pyLe (a b : String) : Prop := a.data ≤ b.data

instance : DecidableRel pyLe := fun a b => inferInstanceAs (Decidable (a.data ≤ b.data))

instance : IsTrans String pyLe := ⟨fun _ _ _ h1 h2 => le_trans h1 h2⟩

instance : IsTotal String pyLe := ⟨fun a b => le_total a.data b.data⟩

instance : IsAntisymm String pyLe := ⟨fun _ _ h1 h2 => String.ext (le_antisymm h1 h2)⟩

/-- Python's `sorted` on a list of strings. -/
def pySorted (l : List String) : List String := l.insertionSort pyLe

/-- app.py line 88, the local `sdr_set`: the set of non-empty normalized
lead-table mobiles, modelled as a duplicate-free list. -/
def sdr_set (sdr_col : List RawVal) : List String :=
  ((normalize_mobile_series sdr_col true).filter (fun p => p != "")).dedup

/-- app.py line 89, the local `zom_set`: the set of non-empty normalized
order-table phones. -/
def zom_set (zomato_col : List RawVal) : List String :=
  ((normalize_mobile_series zomato_col false).filter (fun p => p != "")).dedup

/-- app.py line 90, the local `intersection = sdr_set & zom_set`. -/
def intersectionList (sdr_col zomato_col : List RawVal) : List String :=
  (sdr_set sdr_col).filter (fun p => (zom_set zomato_col).contains p)

/-- app.py line 93, the local `sdr_only = sdr_set - zom_set`. -/
def sdrOnlyList (sdr_col zomato_col : List RawVal) : List String :=
  (sdr_set sdr_col).filter (fun p => !(zom_set zomato_col).contains p)

/-- app.py lines 70-98: the `all_numbers` component of `load_data`'s result
(the RoutingIndex), built from the raw phone columns of the two tables:
`sorted(list(intersection)) + sorted(list(sdr_only))`. -/
def load_data (sdr_col zomato_col : List RawVal) : List String :=
  pySorted (intersectionList sdr_col zomato_col) ++ pySorted (sdrOnlyList sdr_col zomato_col)

/-- Spec 4.2: the canonical phones computed for every row of the lead table. -/
def canonicalLead (sdr_col : List RawVal) : List String :=
  normalize_mobile_series sdr_col true

/-- Spec 4.2: the canonical phones computed for every row of the order table. -/
def canonicalOrder (zomato_col : List RawVal) : List String :=
  normalize_mobile_series zomato_col false

/-- Spec-side (4.2): the lexicographically sorted, duplicate-free list of
canonical phones present (non-empty) in both tables. -/
def specSortedBoth (sdr_col zomato_col : List RawVal) : List String :=
  pySorted (((canonicalLead sdr_col).filter
    (fun p => p != "" && (canonicalOrder zomato_col).contains p)).dedup)

/-- Spec-side (4.2): the lexicographically sorted, duplicate-free list of
canonical phones present (non-empty) only in the lead table. -/
def specSortedLeadOnly (sdr_col zomato_col : List RawVal) : List String :=
  pySorted (((canonicalLead sdr_col).filter
    (fun p => p != "" && !(canonicalOrder zomato_col).contains p)).dedup)

theorem mem_pySorted (l : List String) (x : String) : x ∈ pySorted l ↔ x ∈ l :=
  (List.perm_insertionSort pyLe l).mem_iff

theorem nodup_pySorted (l : List String) (h : l.Nodup) : (pySorted l).Nodup :=
  (List.perm_insertionSort pyLe l).nodup_iff.mpr h

theorem contains_iff_mem (l : List String) (p : String) : l.contains p = true ↔ p ∈ l := by
  simp [List.contains]

theorem contains_eq_false_iff (l : List String) (p : String) :
    l.contains p = false ↔ p ∉ l := by
  simp [List.contains]

theorem mem_sdr_set (a : List RawVal) (p : String) :
    p ∈ sdr_set a ↔ p ∈ canonicalLead a ∧ p ≠ "" := by
  simp [sdr_set, canonicalLead, List.mem_dedup, List.mem_filter]

theorem mem_zom_set (b : List RawVal) (p : String) :
    p ∈ zom_set b ↔ p ∈ canonicalOrder b ∧ p ≠ "" := by
  simp [zom_set, canonicalOrder, List.mem_dedup, List.mem_filter]

theorem mem_intersectionList (a b : List RawVal) (p : String) :
    p ∈ intersectionList a b ↔ p ∈ canonicalLead a ∧ p ≠ "" ∧ p ∈ canonicalOrder b := by
  simp only [intersectionList, List.mem_filter, mem_sdr_set, contains_iff_mem, mem_zom_set]
  tauto

theorem mem_sdrOnlyList (a b : List RawVal) (p : String) :
    p ∈ sdrOnlyList a b ↔ p ∈ canonicalLead a ∧ p ≠ "" ∧ p ∉ canonicalOrder b := by
  simp only [sdrOnlyList, List.mem_filter, mem_sdr_set, Bool.not_eq_true',
    contains_eq_false_iff, mem_zom_set]
  tauto

theorem nodup_intersectionList (a b : List RawVal) : (intersectionList a b).Nodup :=
  List.Nodup.filter _ (List.nodup_dedup _)

theorem nodup_sdrOnlyList (a b : List RawVal) : (sdrOnlyList a b).Nodup :=
  List.Nodup.filter _ (List.nodup_dedup _)

theorem pySorted_eq_of_mem_iff (l l' : List String) (h : l.Nodup) (h' : l'.Nodup)
    (hm : ∀ x, x ∈ l ↔ x ∈ l') : pySorted l = pySorted l' := by
  refine List.eq_of_perm_of_sorted ?_ (List.sorted_insertionSort pyLe l)
    (List.sorted_insertionSort pyLe l')
  refine (List.perm_insertionSort pyLe l).trans (List.Perm.trans ?_
    (List.perm_insertionSort pyLe l').symm)
  refine List.perm_of_nodup_nodup_toFinset_eq h h' ?_
  ext x
  simp [List.mem_toFinset, hm]

theorem mem_specSortedBoth (a b : List RawVal) (p : String) :
    p ∈ specSortedBoth a b ↔ p ∈ canonicalLead a ∧ p ≠ "" ∧ p ∈ canonicalOrder b := by
  rw [specSortedBoth, mem_pySorted, List.mem_dedup, List.mem_filter]
  simp only [Bool.and_eq_true, bne_iff_ne, ne_eq, contains_iff_mem]

theorem mem_specSortedLeadOnly (a b : List RawVal) (p : String) :
    p ∈ specSortedLeadOnly a b ↔ p ∈ canonicalLead a ∧ p ≠ "" ∧ p ∉ canonicalOrder b := by
  rw [specSortedLeadOnly, mem_pySorted, List.mem_dedup, List.mem_filter]
  simp only [Bool.and_eq_true, bne_iff_ne, ne_eq, Bool.not_eq_true',
    contains_eq_false_iff]

/-- A raw order-value cell as seen by the order-value parser. `num q` models a
numeric cell (float coercion trivially succeeds) of exact value `q`; `str s`
a string cell; `missing` an absent value, for which `row.get` supplies the
default of the respective branch. -/
inductive Cell where
  | missing : Cell
  | num : ℚ → Cell
  | str : String → Cell
deriving DecidableEq

/-- The whitespace characters stripped by Python's `float` and `str.strip`. -/
def isPySpace (c : Char) : Bool := c == ' ' || c == '\t' || c == '\n' || c == '\r'

/-- Python's `str.strip()`: remove leading and trailing whitespace. -/
def pyStrip (l : List Char) : List Char :=
  ((l.dropWhile isPySpace).reverse.dropWhile isPySpace).reverse

/-- Value of a run of decimal digit characters. -/
def charsToNat (l : List Char) : Nat := l.foldl (fun a c => 10 * a + (c.toNat - 48)) 0

/-- Value of a sign, an integer digit run and a fractional digit run. -/
def decimalVal (sgn : Int) (ip fp : List Char) : ℚ :=
  sgn * ((charsToNat ip : ℚ) + (charsToNat fp : ℚ) / 10 ^ fp.length)

/-- Models Python's `float()` on the decimal-literal fragment this program
exercises: optional surrounding whitespace, an optional sign, then digits with
at most one decimal point and at least one digit overall. Returns `none` when
`float()` raises `ValueError`. Exponent notation, `inf` or `nan` literals and
digit-group underscores do not occur in the modelled columns. -/
def floatOfString (s : String) : Option ℚ :=
  let cs := pyStrip s.data
  let sgn : Int :=
    match cs with
    | '-' :: _ => -1
    | _ => 1
  let body :=
    match cs with
    | '-' :: rest => rest
    | '+' :: rest => rest
    | _ => cs
  let ip := body.takeWhile Char.isDigit
  let rest := body.drop ip.length
  match rest with
  | [] => if ip.isEmpty then none else some (decimalVal sgn ip [])
  | '.' :: rest2 =>
    let fp := rest2.takeWhile Char.isDigit
    if ¬ (rest2.drop fp.length).isEmpty then none
    else if ip.isEmpty ∧ fp.isEmpty then none
    else some (decimalVal sgn ip fp)
  | _ => none

/-- app.py line 143: `float(row.get(Z_ORDER_VALUE_COL, 0))`. A missing cell
takes the default `0`, whose coercion yields `0.0`; a numeric cell is already
a float; a string cell goes through `float()`. -/
def floatOfCell : Cell → Option ℚ
  | Cell.missing => some 0
  | Cell.num q => some q
  | Cell.str s => floatOfString s

/-- Python's `.replace("₹", "")`: removes every occurrence of the rupee sign. -/
def removeRupee (l : List Char) : List Char := l.filter (fun c => c != '₹')

/-- app.py lines 141-148: order-value parsing. Try numeric coercion; on
failure, remove the currency sign, strip surrounding whitespace and retry; on
repeated failure fall back to `0`. The catch-all arm is unreachable because
`floatOfCell` succeeds on missing and numeric cells. -/
def parseOrderValue (v : Cell) : ℚ :=
  match floatOfCell v with
  | some q => q
  | none =>
    match v with
    | Cell.str s =>
      match floatOfString ⟨pyStrip (removeRupee s.data)⟩ with
      | some q => q
      | none => 0
    | _ => 0

/-- Round half to even on an exact rational, the rounding Python's `round`
performs (order values are modelled as exact rationals). -/
def roundHalfEven (x : ℚ) : ℤ :=
  if Int.fract x < 1 / 2 then ⌊x⌋
  else if 1 / 2 < Int.fract x then ⌊x⌋ + 1
  else if 2 ∣ ⌊x⌋ then ⌊x⌋ else ⌊x⌋ + 1

/-- Python's `round(x, 2)`. -/
def round2 (x : ℚ) : ℚ := (roundHalfEven (x * 100) : ℚ) / 100

/-- Python's `str(cell)` on a text cell whose column is present: a NaN cell
prints as the string nan. -/
def pyStrOpt : Option String → String
  | none => "nan"
  | some s => s

/-- Count of occurrences of a string in a list. -/
def listCount (l : List String) (x : String) : Nat := (l.filter (fun y => y == x)).length

/-- Models `Series.value_counts().idxmax()` over the stringified city column:
the most frequent value, with frequency ties broken by first occurrence, and
`none` on an empty column. -/
def valueCountsIdxmax (l : List String) : Option String :=
  l.eraseDups.foldl
    (fun acc x =>
      match acc with
      | none => some x
      | some y => if listCount l y < listCount l x then some x else acc)
    none

/-- One row of the lead (SDR) table after `load_data` added the normalized
mobile column. Text cells are `Option String`, `none` standing for NaN; the
named columns are assumed present in the sheet. `index` is the row's position,
the dataframe index that `iterrows` yields. -/
structure SdrSourceRow where
  mobile_norm : String
  first_name : Option String
  present_address : Option String
  permanent_address : Option String
  alt_number : Option String
  index : Nat
deriving DecidableEq

/-- One row of the order (Zomato) table after `load_data` added the normalized
phone column. `user_saved_latitude`/`user_saved_longitude` are `none` when the
cell is NaN (`pd.notna` fails). -/
structure ZomatoSourceRow where
  mobile_norm : String
  user_name : Option String
  order_value : Cell
  order_time : Option String
  restaurant_name : Option String
  delivery_address : Option String
  city_name : Option String
  user_saved_latitude : Option ℚ
  user_saved_longitude : Option ℚ
  index : Nat
deriving DecidableEq

/-- app.py lines 101-107: the SDRRow dataclass. -/
structure SDRRow where
  index : Nat
  name : String
  present_address : String
  permanent_address : String
  alt_number : String
deriving DecidableEq

/-- app.py lines 110-119: the OrderRow dataclass. -/
structure OrderRow where
  index : Nat
  customer_name : String
  restaurant : String
  order_value : ℚ
  order_time : String
  delivery_address : String
  lat : ℚ
  lon : ℚ
deriving DecidableEq

/-- app.py lines 128-137: one SDRRow built from a matched lead row. -/
def toSDRRow (r : SdrSourceRow) : SDRRow :=
  { index := r.index
    name := pyStrOpt r.first_name
    present_address := pyStrOpt r.present_address
    permanent_address := pyStrOpt r.permanent_address
    alt_number := pyStrOpt r.alt_number }

/-- app.py lines 140-165: one OrderRow built from a matched order row. -/
def toOrderRow (r : ZomatoSourceRow) : OrderRow :=
  { index := r.index
    customer_name := pyStrOpt r.user_name
    restaurant := pyStrOpt r.restaurant_name
    order_value := parseOrderValue r.order_value
    order_time := pyStrOpt r.order_time
    delivery_address := pyStrOpt r.delivery_address
    lat := r.user_saved_latitude.getD 0
    lon := r.user_saved_longitude.getD 0 }

/-- The dictionary returned by `build_customer_context` (app.py lines
183-193). -/
structure CustomerContext where
  mobile_display : String
  mobile_with_country : String
  customer_name : Option String
  sdr_rows : List SDRRow
  orders : List OrderRow
  total_orders : Nat
  avg_order_value : ℚ
  primary_city : Option String
  is_active : Bool

/-- app.py lines 122-193: `build_customer_context`. The tables are the two
dataframes with their normalized phone columns; `hasCityCol` models the
`Z_CITY_COL in zomato_matches.columns` guard. -/
def build_customer_context (sdr_table : List SdrSourceRow) (zomato_table : List ZomatoSourceRow)
    (hasCityCol : Bool) (mobile_norm : String) : CustomerContext :=
  let sdr_matches := sdr_table.filter (fun r => r.mobile_norm == mobile_norm)
  let zomato_matches := zomato_table.filter (fun r => r.mobile_norm == mobile_norm)
  let sdr_rows := sdr_matches.map toSDRRow
  let orders := zomato_matches.map toOrderRow
  let total_orders := orders.length
  let avg_order_value :=
    if total_orders ≠ 0 then round2 (((orders.map OrderRow.order_value).sum) / (total_orders : ℚ))
    else 0
  let primary_city :=
    if ¬ zomato_matches.isEmpty ∧ hasCityCol then
      valueCountsIdxmax (zomato_matches.map (fun r => pyStrOpt r.city_name))
    else none
  let customer_name :=
    match sdr_rows with
    | r :: _ => some r.name
    | [] =>
      match orders with
      | o :: _ => some o.customer_name
      | [] => none
  { mobile_display := mobile_norm
    mobile_with_country := if mobile_norm.length = 10 then "+91" ++ mobile_norm else mobile_norm
    customer_name := customer_name
    sdr_rows := sdr_rows
    orders := orders
    total_orders := total_orders
    avg_order_value := avg_order_value
    primary_city := primary_city
    is_active := decide (0 < total_orders) }

/-- The observable outcome of `GET /customer/<page>`: `unavailable` models the
`abort(500, ...)` taken when the index is empty, `notFound` the `abort(404)`,
and `rendered` the `render_template` call with the current page, the total
page count and the customer context. -/
inductive PageResponse where
  | unavailable : PageResponse
  | notFound : PageResponse
  | rendered : Nat → Nat → CustomerContext → PageResponse

/-- app.py lines 239-260: the `customer_page` route. Flask's `<int:page>`
converter only matches digit strings, so `page` is a natural number. -/
def customer_page (sdr_table : List SdrSourceRow) (zomato_table : List ZomatoSourceRow)
    (hasCityCol : Bool) (all_mobiles : List String) (page : Nat) : PageResponse :=
  if all_mobiles = [] then PageResponse.unavailable
  else if page < 1 ∨ all_mobiles.length < page then PageResponse.notFound
  else
    PageResponse.rendered page all_mobiles.length
      (build_customer_context sdr_table zomato_table hasCityCol (all_mobiles.getD (page - 1) ""))

theorem digitChar_isDigit (m : Nat) (h : m < 10) : (Nat.digitChar m).isDigit = true := by
  interval_cases m <;> decide

theorem toDigitsCore_digits (fuel : Nat) :
    ∀ (n : Nat) (ds : List Char), (∀ c ∈ ds, c.isDigit = true) →
      ∀ c ∈ Nat.toDigitsCore 10 fuel n ds, c.isDigit = true := by
  induction fuel with
  | zero =>
    intro n ds h
    simpa [Nat.toDigitsCore] using h
  | succ fuel ih =>
    intro n ds h
    have hd : ∀ c ∈ (Nat.digitChar (n % 10) :: ds), c.isDigit = true := by
      intro c hc
      rcases List.mem_cons.mp hc with rfl | hc
      · exact digitChar_isDigit _ (Nat.mod_lt _ (by decide))
      · exact h c hc
    simp only [Nat.toDigitsCore]
    split
    · exact hd
    · exact ih (n / 10) _ hd

theorem natRepr_digits (n : Nat) : ∀ c ∈ (Nat.repr n).data, c.isDigit = true := by
  intro c hc
  exact toDigitsCore_digits (n + 1) n [] (by simp) c hc

/-- Amended hypothesis for the normalizer digit invariant: the cell's numeric
interpretation, when there is one, is nonnegative. -/
def nonnegRaw : RawVal → Prop
  | RawVal.num n => 0 ≤ n
  | _ => True

instance : DecidablePred nonnegRaw := fun v =>
  match v with
  | RawVal.missing => inferInstanceAs (Decidable True)
  | RawVal.num n => inferInstanceAs (Decidable (0 ≤ n))
  | RawVal.str _ => inferInstanceAs (Decidable True)

theorem rawDigits_digits (v : RawVal) (h : nonnegRaw v) :
    ∀ c ∈ rawDigits v, c.isDigit = true := by
  cases v with
  | missing => simp [rawDigits]
  | num n =>
    obtain ⟨m, rfl⟩ := Int.eq_ofNat_of_zero_le h
    exact fun c hc => natRepr_digits m c hc
  | str s =>
    intro c hc
    simp only [rawDigits, List.mem_filter] at hc
    exact hc.2

theorem lstrip0_sublist (l : List Char) : (lstrip0 l).Sublist l :=
  List.dropWhile_sublist _

theorem normCore_sublist (flag : Bool) (s : List Char) :
    (lstrip0 (if flag then
      (if startsWith91 s ∧ 12 ≤ s.length then s.drop 2 else s).take 10
    else s)).Sublist s := by
  refine List.Sublist.trans (lstrip0_sublist _) ?_
  cases flag with
  | false => simp
  | true =>
    refine List.Sublist.trans (List.take_sublist _ _) ?_
    split
    · exact List.drop_sublist _ _
    · exact List.Sublist.refl _

theorem norm_data_sublist (flag : Bool) (v : RawVal) :
    (norm flag v).data.Sublist (rawDigits v) := by
  cases v with
  | missing =>
    have h1 : (norm flag RawVal.missing).data = [] := rfl
    rw [h1]
    exact List.nil_sublist _
  | num n => exact normCore_sublist flag (rawDigits (RawVal.num n))
  | str s => exact normCore_sublist flag (rawDigits (RawVal.str s))

theorem lstrip0_head (l : List Char) : (lstrip0 l).head? ≠ some '0' := by
  induction l with
  | nil => simp [lstrip0]
  | cons a l ih =>
    rw [lstrip0, List.dropWhile_cons]
    split
    · exact ih
    · rename_i h
      intro hc
      have ha : a = '0' := by simpa using hc
      subst ha
      simp at h

theorem norm_true_eq (v : RawVal) (hv : v ≠ RawVal.missing) :
    norm true v = ⟨lstrip0 ((if startsWith91 (rawDigits v) ∧ 12 ≤ (rawDigits v).length then
      (rawDigits v).drop 2 else rawDigits v).take 10)⟩ := by
  cases v with
  | missing => exact absurd rfl hv
  | num n => rfl
  | str s => rfl

/-- C3: in lead-table context, when the digit string starts with 91 and has
length at least 12, the code drops the first two digits, keeps the first 10 of
the rest and strips leading zeros. -/
theorem c3_lead_truncation (v : RawVal)
    (h1 : startsWith91 (rawDigits v) = true) (h2 : 12 ≤ (rawDigits v).length) :
    norm true v = ⟨lstrip0 (((rawDigits v).drop 2).take 10)⟩ := by
  have hv : v ≠ RawVal.missing := by
    rintro rfl
    simp [rawDigits] at h2
  rw [norm_true_eq v hv, if_pos ⟨h1, h2⟩]

/-- Witness for C3 at the spec's example: normalizing 919876543210 in lead
context yields "9876543210". -/
theorem c3_witness :
    startsWith91 (rawDigits (RawVal.num 919876543210)) = true ∧
    12 ≤ (rawDigits (RawVal.num 919876543210)).length ∧
    norm true (RawVal.num 919876543210) = "9876543210" := by
  refine ⟨by decide, by decide, ?_⟩
  rw [c3_lead_truncation _ (by decide) (by decide)]
  decide

/-- C4: the single-value search normalizer agrees with the batch normalizer in
lead-table context on every non-missing input; in order-table context the
batch normalizer only extracts digits and strips zeros (no truncation), and
the two disagree on a 12-digit 91-prefixed number. -/
theorem c4_single_unconditional :
    (∀ raw : RawVal, raw ≠ RawVal.missing → normalize_single_mobile raw = norm true raw) ∧
    (∀ val : RawVal, norm false val = ⟨lstrip0 (rawDigits val)⟩) ∧
    normalize_single_mobile (RawVal.num 919876543210) ≠ norm false (RawVal.num 919876543210) := by
  refine ⟨?_, ?_, by decide⟩
  · intro raw h
    cases raw with
    | missing => exact absurd rfl h
    | num n => rfl
    | str s => rfl
  · intro val
    cases val with
    | missing => decide
    | num n => rfl
    | str s => rfl

/-- Witness for C4 at a concrete non-missing input. -/
theorem c4_witness :
    (RawVal.str "98x7654321099" ≠ RawVal.missing) ∧
    normalize_single_mobile (RawVal.str "98x7654321099") = norm true (RawVal.str "98x7654321099") :=
  ⟨by decide, c4_single_unconditional.1 _ (by decide)⟩

/-- C5 counterexample: a negative numeric cell normalizes to a string with a
minus sign, so the output is not a digits-only string. -/
theorem c5_counterexample :
    norm false (RawVal.num (-5)) = "-5" ∧
    ¬ (∀ c ∈ (norm false (RawVal.num (-5))).data, c.isDigit = true) := by
  exact ⟨by decide, by decide⟩

/-- C5 (amended): for every raw value whose numeric interpretation, if any, is
nonnegative, and either context flag, the normalizer's output consists only of
decimal digits and never starts with a zero; a missing value yields the empty
string. -/
theorem c5_nonneg_digits (flag : Bool) (v : RawVal) (h : nonnegRaw v) :
    (∀ c ∈ (norm flag v).data, c.isDigit = true) ∧
    (norm flag v).data.head? ≠ some '0' ∧
    (v = RawVal.missing → norm flag v = "") := by
  refine ⟨?_, ?_, ?_⟩
  · intro c hc
    exact rawDigits_digits v h c ((norm_data_sublist flag v).mem hc)
  · cases v with
    | missing =>
      have h1 : (norm flag RawVal.missing).data = [] := rfl
      rw [h1]
      decide
    | num n => exact lstrip0_head _
    | str s => exact lstrip0_head _
  · rintro rfl
    rfl

/-- Witness for C5 (amended) at the spec's leading-zero example. -/
theorem c5_witness :
    nonnegRaw (RawVal.str "0009876543210") ∧
    (∀ c ∈ (norm false (RawVal.str "0009876543210")).data, c.isDigit = true) ∧
    (norm false (RawVal.str "0009876543210")).data.head? ≠ some '0' := by
  refine ⟨by decide, ?_, ?_⟩
  · exact (c5_nonneg_digits false _ (by decide)).1
  · exact (c5_nonneg_digits false _ (by decide)).2.1

/-- C1: the RoutingIndex built by load_data equals the lexicographically
sorted list of non-empty canonical phones present in both tables concatenated
with the sorted list of those present only in the lead table, and every
position holding an intersection phone precedes every position holding a
lead-only phone. -/
theorem c1_routing_index (a b : List RawVal) :
    load_data a b = specSortedBoth a b ++ specSortedLeadOnly a b ∧
    (∀ (i j : Nat) (x y : String),
      (load_data a b)[i]? = some x → (load_data a b)[j]? = some y →
      x ∈ specSortedBoth a b → y ∈ specSortedLeadOnly a b → i < j) := by
  have hboth : pySorted (intersectionList a b) = specSortedBoth a b := by
    rw [specSortedBoth]
    refine pySorted_eq_of_mem_iff _ _ (nodup_intersectionList a b) (List.nodup_dedup _) ?_
    intro x
    have hx := mem_specSortedBoth a b x
    rw [specSortedBoth, mem_pySorted] at hx
    rw [mem_intersectionList, hx]
  have hlead : pySorted (sdrOnlyList a b) = specSortedLeadOnly a b := by
    rw [specSortedLeadOnly]
    refine pySorted_eq_of_mem_iff _ _ (nodup_sdrOnlyList a b) (List.nodup_dedup _) ?_
    intro x
    have hx := mem_specSortedLeadOnly a b x
    rw [specSortedLeadOnly, mem_pySorted] at hx
    rw [mem_sdrOnlyList, hx]
  have heq : load_data a b = specSortedBoth a b ++ specSortedLeadOnly a b := by
    rw [load_data, hboth, hlead]
  refine ⟨heq, ?_⟩
  intro i j x y hx hy hxA hyB
  rw [heq] at hx hy
  have hdisj : ∀ z, z ∈ specSortedBoth a b → z ∈ specSortedLeadOnly a b → False := by
    intro z h1 h2
    exact ((mem_specSortedLeadOnly a b z).mp h2).2.2 ((mem_specSortedBoth a b z).mp h1).2.2
  have hiA : i < (specSortedBoth a b).length := by
    by_contra hc
    push_neg at hc
    rw [List.getElem?_append_right hc] at hx
    exact absurd (List.getElem?_mem hx) (fun hm => hdisj x hxA hm)
  have hjB : (specSortedBoth a b).length ≤ j := by
    by_contra hc
    push_neg at hc
    rw [List.getElem?_append_left hc] at hy
    exact absurd (List.getElem?_mem hy) (fun hm => hdisj y hm hyB)
  omega

/-- Witness for C1 at a concrete pair of tables. -/
theorem c1_witness :
    load_data [RawVal.num 5, RawVal.num 7] [RawVal.num 5] = ["5", "7"] ∧
    (load_data [RawVal.num 5, RawVal.num 7] [RawVal.num 5])[0]? = some "5" ∧
    (load_data [RawVal.num 5, RawVal.num 7] [RawVal.num 5])[1]? = some "7" ∧
    (0 : Nat) < 1 := by
  refine ⟨by decide, by decide, by decide, ?_⟩
  exact (c1_routing_index [RawVal.num 5, RawVal.num 7] [RawVal.num 5]).2 0 1 "5" "7"
    (by decide) (by decide) (by decide) (by decide)

/-- C2: the RoutingIndex contains no duplicates, and every entry is a
non-empty canonical phone of the lead table. -/
theorem c2_routing_index_entries (a b : List RawVal) :
    (load_data a b).Nodup ∧
    ∀ p ∈ load_data a b, p ≠ "" ∧ p ∈ canonicalLead a := by
  constructor
  · rw [load_data]
    refine List.Nodup.append (nodup_pySorted _ (nodup_intersectionList a b))
      (nodup_pySorted _ (nodup_sdrOnlyList a b)) ?_
    intro x hx hy
    rw [mem_pySorted, mem_intersectionList] at hx
    rw [mem_pySorted, mem_sdrOnlyList] at hy
    exact hy.2.2 hx.2.2
  · intro p hp
    rw [load_data, List.mem_append] at hp
    rcases hp with hp | hp
    · rw [mem_pySorted, mem_intersectionList] at hp
      exact ⟨hp.2.1, hp.1⟩
    · rw [mem_pySorted, mem_sdrOnlyList] at hp
      exact ⟨hp.2.1, hp.1⟩

/-- Witness for C2 at a concrete pair of tables. -/
theorem c2_witness :
    (load_data [RawVal.num 5] [RawVal.num 5]).Nodup ∧
    ("5" ∈ load_data [RawVal.num 5] [RawVal.num 5]) ∧
    "5" ≠ "" ∧ "5" ∈ canonicalLead [RawVal.num 5] := by
  refine ⟨(c2_routing_index_entries [RawVal.num 5] [RawVal.num 5]).1, by decide, ?_⟩
  exact (c2_routing_index_entries [RawVal.num 5] [RawVal.num 5]).2 "5" (by decide)

theorem build_orders (sdr : List SdrSourceRow) (zom : List ZomatoSourceRow)
    (hasCity : Bool) (m : String) :
    (build_customer_context sdr zom hasCity m).orders =
      (zom.filter (fun r => r.mobile_norm == m)).map toOrderRow := rfl

theorem build_avg (sdr : List SdrSourceRow) (zom : List ZomatoSourceRow)
    (hasCity : Bool) (m : String) :
    (build_customer_context sdr zom hasCity m).avg_order_value =
      if ((zom.filter (fun r => r.mobile_norm == m)).map toOrderRow).length ≠ 0 then
        round2 ((((zom.filter (fun r => r.mobile_norm == m)).map toOrderRow).map
            OrderRow.order_value).sum /
          ((((zom.filter (fun r => r.mobile_norm == m)).map toOrderRow).length : ℚ)))
      else 0 := rfl

theorem build_primary_city (sdr : List SdrSourceRow) (zom : List ZomatoSourceRow)
    (hasCity : Bool) (m : String) :
    (build_customer_context sdr zom hasCity m).primary_city =
      if ¬ (zom.filter (fun r => r.mobile_norm == m)).isEmpty ∧ hasCity then
        valueCountsIdxmax ((zom.filter (fun r => r.mobile_norm == m)).map
          (fun r => pyStrOpt r.city_name))
      else none := rfl

/-- C6: the average order value is 0 when no orders matched, else the mean of
the parsed order values rounded to two decimals. -/
theorem c6_avg_order_value (sdr : List SdrSourceRow) (zom : List ZomatoSourceRow)
    (hasCity : Bool) (m : String) :
    ((build_customer_context sdr zom hasCity m).orders = [] →
      (build_customer_context sdr zom hasCity m).avg_order_value = 0) ∧
    ((build_customer_context sdr zom hasCity m).orders ≠ [] →
      (build_customer_context sdr zom hasCity m).avg_order_value =
        round2 (((build_customer_context sdr zom hasCity m).orders.map
            OrderRow.order_value).sum /
          (((build_customer_context sdr zom hasCity m).orders.length : ℚ)))) := by
  constructor
  · intro h
    rw [build_orders] at h
    rw [build_avg, if_neg (by simp [h])]
  · intro h
    rw [build_orders] at h
    rw [build_avg, if_pos (fun hc => h (List.length_eq_zero.mp hc)), build_orders]

/-- A matched order row worth 100 for the C6 witness. -/
def wOrder100 : ZomatoSourceRow :=
  ⟨"7", some "Asha", Cell.num 100, none, none, none, some "Pune", none, none, 0⟩

/-- A matched order row worth 250 for the C6 witness. -/
def wOrder250 : ZomatoSourceRow :=
  ⟨"7", some "Asha", Cell.num 250, none, none, none, some "Pune", none, none, 1⟩

/-- Witness for C6 at the spec's example: orders worth 100 and 250 average to
175. -/
theorem c6_witness :
    (build_customer_context [] [wOrder100, wOrder250] true "7").orders ≠ [] ∧
    (build_customer_context [] [wOrder100, wOrder250] true "7").avg_order_value = 175 := by
  have hne : (build_customer_context [] [wOrder100, wOrder250] true "7").orders ≠ [] := by
    decide
  refine ⟨hne, ?_⟩
  have h := (c6_avg_order_value [] [wOrder100, wOrder250] true "7").2 hne
  rw [h]
  have hvals : (build_customer_context [] [wOrder100, wOrder250] true "7").orders.map
      OrderRow.order_value = [100, 250] := by decide
  have hlen : (build_customer_context [] [wOrder100, wOrder250] true "7").orders.length = 2 := by
    decide
  rw [hvals, hlen]
  have hsum : ([100, 250] : List ℚ).sum = 350 := by norm_num
  rw [hsum]
  norm_num [round2, roundHalfEven, Int.fract]

/-- C7 (amended): order-value parsing tries numeric coercion first; on
failure it removes every occurrence of the currency sign, strips surrounding
whitespace and retries; on repeated failure it yields 0 instead of an error. -/
theorem c7_parse_fallback (v : Cell) :
    (∀ q : ℚ, floatOfCell v = some q → parseOrderValue v = q) ∧
    (∀ s : String, v = Cell.str s → floatOfString s = none →
      (∀ q : ℚ, floatOfString ⟨pyStrip (removeRupee s.data)⟩ = some q →
        parseOrderValue v = q) ∧
      (floatOfString ⟨pyStrip (removeRupee s.data)⟩ = none → parseOrderValue v = 0)) := by
  constructor
  · intro q hq
    simp [parseOrderValue, hq]
  · rintro s rfl hn
    constructor
    · intro q hq
      simp [parseOrderValue, floatOfCell, hn, hq]
    · intro hq
      simp [parseOrderValue, floatOfCell, hn, hq]

/-- The retry step as the claim words it: strip only a leading currency
symbol, then surrounding whitespace. -/
def stripLeadingRupee (l : List Char) : List Char :=
  match l with
  | '₹' :: rest => rest
  | _ => l

/-- Order-value parsing as the claim words it (leading-symbol strip instead of
the code's replace-all). -/
def parseOrderValueClaim (v : Cell) : ℚ :=
  match floatOfCell v with
  | some q => q
  | none =>
    match v with
    | Cell.str s =>
      match floatOfString ⟨pyStrip (stripLeadingRupee s.data)⟩ with
      | some q => q
      | none => 0
    | _ => 0

/-- C7 counterexample: on the string cell containing 100 followed by a rupee
sign, the code's replace-all retry parses 100, while the claim's
leading-symbol strip leaves the sign in place, fails, and yields 0. -/
theorem c7_counterexample :
    parseOrderValue (Cell.str "100₹") = 100 ∧
    parseOrderValueClaim (Cell.str "100₹") = 0 ∧
    parseOrderValue (Cell.str "100₹") ≠ parseOrderValueClaim (Cell.str "100₹") := by
  have e1 : parseOrderValue (Cell.str "100₹") = decimalVal 1 ['1', '0', '0'] [] := rfl
  have e2 : parseOrderValueClaim (Cell.str "100₹") = 0 := rfl
  have h1 : charsToNat ['1', '0', '0'] = 100 := by decide
  have h2 : charsToNat ([] : List Char) = 0 := by decide
  have e3 : decimalVal 1 ['1', '0', '0'] [] = 100 := by
    rw [decimalVal, h1, h2]
    norm_num
  refine ⟨by rw [e1, e3], e2, by rw [e1, e3, e2]; norm_num⟩

/-- Witness for C7 on a cell where both parse attempts fail. -/
theorem c7_witness :
    floatOfCell (Cell.str "abc") = none ∧
    floatOfString ⟨pyStrip (removeRupee ("abc" : String).data)⟩ = none ∧
    parseOrderValue (Cell.str "abc") = 0 := by
  refine ⟨by decide, by decide, ?_⟩
  exact ((c7_parse_fallback (Cell.str "abc")).2 "abc" rfl (by decide)).2 (by decide)

/-- The claim's reading of primary city: the most frequent non-null city among
the matched order rows, ties broken by first occurrence. -/
def mostFrequentNonNullCity (ms : List ZomatoSourceRow) : Option String :=
  valueCountsIdxmax (ms.filterMap (fun r => r.city_name))

/-- A matched order row with a NaN city (C8 counterexample). -/
def z8a : ZomatoSourceRow := ⟨"7", none, Cell.num 10, none, none, none, none, none, none, 0⟩

/-- A second matched order row with a NaN city (C8 counterexample). -/
def z8b : ZomatoSourceRow := ⟨"7", none, Cell.num 20, none, none, none, none, none, none, 1⟩

/-- A matched order row whose city is Delhi (C8 counterexample). -/
def z8c : ZomatoSourceRow :=
  ⟨"7", none, Cell.num 30, none, none, none, some "Delhi", none, none, 2⟩

/-- C8 counterexample: with two NaN cities and one Delhi among the matched
orders, astype(str) turns the NaN cells into the string nan, which wins the
frequency count, while the claim's non-null reading predicts Delhi. -/
theorem c8_counterexample :
    (build_customer_context [] [z8a, z8b, z8c] true "7").primary_city = some "nan" ∧
    mostFrequentNonNullCity ([z8a, z8b, z8c].filter (fun r => r.mobile_norm == "7")) =
      some "Delhi" ∧
    (some "nan" : Option String) ≠ some "Delhi" := by
  refine ⟨by decide, by decide, by decide⟩

/-- C8 (amended): primary_city is none when no orders matched or the city
column is absent; otherwise it is the most frequent value of the stringified
city column — NaN cells counting as the string nan — with frequency ties
broken by first occurrence. -/
theorem c8_primary_city (sdr : List SdrSourceRow) (zom : List ZomatoSourceRow)
    (hasCity : Bool) (m : String) :
    (zom.filter (fun r => r.mobile_norm == m) = [] →
      (build_customer_context sdr zom hasCity m).primary_city = none) ∧
    (hasCity = false → (build_customer_context sdr zom hasCity m).primary_city = none) ∧
    (zom.filter (fun r => r.mobile_norm == m) ≠ [] → hasCity = true →
      (build_customer_context sdr zom hasCity m).primary_city =
        valueCountsIdxmax ((zom.filter (fun r => r.mobile_norm == m)).map
          (fun r => pyStrOpt r.city_name))) := by
  refine ⟨?_, ?_, ?_⟩
  · intro h
    rw [build_primary_city, if_neg (by simp [h, List.isEmpty_iff])]
  · intro h
    rw [build_primary_city, if_neg (by simp [h])]
  · intro h1 h2
    rw [build_primary_city, if_pos ⟨by simpa [List.isEmpty_iff] using h1, h2⟩]

/-- Witness for C8 (amended) at a single matched row with city Delhi. -/
theorem c8_witness :
    ([z8c].filter (fun r => r.mobile_norm == "7") ≠ []) ∧
    (build_customer_context [] [z8c] true "7").primary_city = some "Delhi" := by
  constructor
  · decide
  · rw [(c8_primary_city [] [z8c] true "7").2.2 (by decide) rfl]
    decide

/-- The claim's display-name rule restricted to lead rows: the first non-empty
lead name. -/
def firstNonEmptyLeadName (rows : List SDRRow) : Option String :=
  match rows.filter (fun r => r.name != "") with
  | r :: _ => some r.name
  | [] => none

/-- A matched lead row whose first name cell is the empty string (C9). -/
def s9a : SdrSourceRow := ⟨"7", some "", none, none, none, 0⟩

/-- A matched lead row named Bob (C9). -/
def s9b : SdrSourceRow := ⟨"7", some "Bob", none, none, none, 1⟩

/-- C9 (code bug): with a first matched lead row whose name is empty and a
second named Bob, the code displays the empty first name, while the claim —
and the code's own comment, which says to use the first non-empty name —
require Bob. -/
theorem c9_first_name_bug :
    (build_customer_context [s9a, s9b] [] true "7").customer_name = some "" ∧
    firstNonEmptyLeadName ((build_customer_context [s9a, s9b] [] true "7").sdr_rows) =
      some "Bob" ∧
    (some "" : Option String) ≠ some "Bob" := by
  refine ⟨by decide, by decide, by decide⟩

/-- C10: the customer page route reports unavailable data on an empty index,
not-found for page numbers below 1 or above the index length, and otherwise
renders the customer context of the page-th index entry. -/
theorem c10_customer_page (sdr : List SdrSourceRow) (zom : List ZomatoSourceRow)
    (hasCity : Bool) (all_mobiles : List String) (page : Nat) :
    (all_mobiles = [] →
      customer_page sdr zom hasCity all_mobiles page = PageResponse.unavailable) ∧
    (all_mobiles ≠ [] → (page < 1 ∨ all_mobiles.length < page) →
      customer_page sdr zom hasCity all_mobiles page = PageResponse.notFound) ∧
    (∀ hp : page - 1 < all_mobiles.length, 1 ≤ page →
      customer_page sdr zom hasCity all_mobiles page =
        PageResponse.rendered page all_mobiles.length
          (build_customer_context sdr zom hasCity (all_mobiles.get ⟨page - 1, hp⟩))) := by
  refine ⟨?_, ?_, ?_⟩
  · intro h
    rw [customer_page, if_pos h]
  · intro h1 h2
    rw [customer_page, if_neg h1, if_pos h2]
  · intro hp h1
    have hne : all_mobiles ≠ [] := by
      intro hc
      rw [hc] at hp
      simp at hp
    have hcond : ¬ (page < 1 ∨ all_mobiles.length < page) := by omega
    rw [customer_page, if_neg hne, if_neg hcond, List.getD_eq_getElem _ _ hp]
    rfl

/-- Witness for C10: a one-entry index renders page 1 and rejects pages 0 and
2; an empty index is unavailable. -/
theorem c10_witness :
    customer_page [] [] true ["7"] 1 =
      PageResponse.rendered 1 1 (build_customer_context [] [] true "7") ∧
    customer_page [] [] true ["7"] 0 = PageResponse.notFound ∧
    customer_page [] [] true ["7"] 2 = PageResponse.notFound ∧
    customer_page [] [] true ([] : List String) 5 = PageResponse.unavailable := by
  refine ⟨?_, ?_, ?_, ?_⟩
  · exact (c10_customer_page [] [] true ["7"] 1).2.2 (by decide) (by decide)
  · exact (c10_customer_page [] [] true ["7"] 0).2.1 (by decide) (Or.inl (by decide))
  · exact (c10_customer_page [] [] true ["7"] 2).2.1 (by decide) (Or.inr (by decide))
  · exact (c10_customer_page [] [] true [] 5).1 rfl
